import Mathlib

/-!
Verification development for the `vlm_for_iqa` scripts.

The repository is a set of standalone Python batch scripts:
  * `misc/populate_test_directory.py` — a deterministic stratified sampler that
    partitions image filenames into flower categories and copies a seeded
    random sample of each category;
  * `no_reference/niqe.py` — a NIQE batch scorer writing a valid-results table
    and a corrupted-results table;
  * `qwen200.py`, `other_taxa.py`, `qwen_vl_iqa.py` — vision-language
    classification loops writing one CSV row per image.

Python strings are modelled as `List Char`, Python's `%` on `int` as `Int`'s
`%` (both are Euclidean remainder for a positive modulus), machine files and
directories as explicit listings, and the external collaborators (the
pretrained models, `random.sample`, `shutil.copy2`, the process's salted
`hash` for `str`) as function parameters, with their documented behaviour
stated as explicit hypotheses where a theorem needs it.
-/

namespace VlmIqa

/-- Python strings, modelled as lists of characters. -/
abbrev PyStr := List Char

/-- Python `s.lower()` (the filenames involved are ASCII, where
`Char.toLower` agrees with `str.lower`). -/
def pyLower (s : PyStr) : PyStr := s.map Char.toLower

/-- Python `s.endswith(t)` for a single suffix. -/
def pyEndsWith (s t : PyStr) : Bool := t.isSuffixOf s

/-- Python `t in s` substring containment. -/
def pyContains (s t : PyStr) : Bool := s.tails.any (fun u => t.isPrefixOf u)

/-- Python `s.split(c)` for a one-character separator. -/
def pySplitChar (c : Char) : PyStr → List PyStr
  | [] => [[]]
  | x :: xs =>
    match pySplitChar c xs with
    | [] => [[]]
    | r :: rs => if x == c then [] :: r :: rs else (x :: r) :: rs

/-- Python `"_".join(parts)`. -/
def pyJoinUnderscore : List PyStr → PyStr
  | [] => []
  | [s] => s
  | s :: t :: rest => s ++ '_' :: pyJoinUnderscore (t :: rest)

/-- Python string comparison `a <= b`: lexicographic on code points. -/
def pyStrLe : PyStr → PyStr → Bool
  | [], _ => true
  | _ :: _, [] => false
  | a :: as, b :: bs => if a < b then true else if b < a then false else pyStrLe as bs

/-- Insert an element into an ascending list, keeping it ascending. -/
def insertSorted (x : PyStr) : List PyStr → List PyStr
  | [] => [x]
  | y :: ys => if pyStrLe x y then x :: y :: ys else y :: insertSorted x ys

/-- Python `sorted(files)` on a list of strings: the ascending reordering of
the input under the code-point order. Because the order is total and equal
strings are identical, the ascending reordering is unique as a list, so any
correct sort (here, insertion sort) computes exactly what `sorted()` returns. -/
def pySorted : List PyStr → List PyStr
  | [] => []
  | x :: xs => insertSorted x (pySorted xs)

/-! Basic lemmas about the string primitives. -/

theorem pyContains_iff (s t : PyStr) : pyContains s t = true ↔ t <:+: s := by
  unfold pyContains
  rw [List.any_eq_true]
  constructor
  · rintro ⟨u, hu, hpre⟩
    rw [List.mem_tails] at hu
    rw [List.isPrefixOf_iff_prefix] at hpre
    exact List.infix_iff_prefix_suffix.mpr ⟨u, hpre, hu⟩
  · intro h
    obtain ⟨u, hpre, hsuf⟩ := List.infix_iff_prefix_suffix.mp h
    exact ⟨u, (List.mem_tails u s).mpr hsuf, List.isPrefixOf_iff_prefix.mpr hpre⟩

theorem pyEndsWith_iff (s t : PyStr) : pyEndsWith s t = true ↔ t <:+ s := by
  unfold pyEndsWith
  exact List.isSuffixOf_iff_suffix

theorem pyEndsWith_lower {s t : PyStr} (h : pyEndsWith s t = true) :
    pyEndsWith (pyLower s) (pyLower t) = true := by
  rw [pyEndsWith_iff] at h ⊢
  exact List.IsSuffix.map Char.toLower h

theorem length_insertSorted (x : PyStr) (l : List PyStr) :
    (insertSorted x l).length = l.length + 1 := by
  induction l with
  | nil => rfl
  | cons y ys ih =>
    unfold insertSorted
    split
    · simp
    · simp [ih]

theorem mem_insertSorted (y x : PyStr) (l : List PyStr) :
    y ∈ insertSorted x l ↔ y = x ∨ y ∈ l := by
  induction l with
  | nil => simp [insertSorted]
  | cons z zs ih =>
    unfold insertSorted
    split
    · simp
    · simp only [List.mem_cons, ih]
      tauto

theorem length_pySorted (l : List PyStr) : (pySorted l).length = l.length := by
  induction l with
  | nil => rfl
  | cons x xs ih => simp [pySorted, length_insertSorted, ih]

theorem mem_pySorted (y : PyStr) (l : List PyStr) : y ∈ pySorted l ↔ y ∈ l := by
  induction l with
  | nil => simp [pySorted]
  | cons x xs ih => simp [pySorted, mem_insertSorted, ih]

/-! Model of `misc/populate_test_directory.py`. -/

/-- Supported image extensions of the sampler
(`populate_test_directory.py`, line 68). -/
def validExtensions : List PyStr :=
  [".jpg".data, ".jpeg".data, ".png".data, ".JPG".data, ".JPEG".data, ".PNG".data]

/-- Extension check of the sampler, line 83:
`any(filename.lower().endswith(ext.lower()) for ext in valid_extensions)`. -/
def popHasValidExt (filename : PyStr) : Bool :=
  validExtensions.any (fun ext => pyEndsWith (pyLower filename) (pyLower ext))

/-- Computable reading of `re.match(f"^{flower}_\\d+\\.", filename)` (line 89)
for the word-character flower names the script uses: the filename starts with
the flower name, an underscore, then its maximal run of digits must be
nonempty and be followed by a dot. Backtracking over `\d+` adds nothing: if
the character after a shorter digit run is not a dot it is a digit, so a match
exists exactly at the maximal run. -/
def matchesFlowerPattern (flower filename : PyStr) : Bool :=
  (flower ++ ['_']).isPrefixOf filename &&
    (!((filename.drop (flower.length + 1)).takeWhile Char.isDigit).isEmpty &&
      (((filename.drop (flower.length + 1)).dropWhile Char.isDigit).headD ' ' == '.'))

/-- Declarative reading of the same regex: the filename decomposes as the
flower name, an underscore, a nonempty block of digits, and a dot. -/
def FlowerPatternSpec (flower filename : PyStr) : Prop :=
  ∃ ds rest, filename = flower ++ '_' :: (ds ++ '.' :: rest)
    ∧ ds ≠ [] ∧ ∀ c ∈ ds, c.isDigit = true

theorem takeWhile_all_append {p : Char → Bool} {ds r : PyStr} {y : Char}
    (hds : ∀ c ∈ ds, p c = true) (hy : p y = false) :
    (ds ++ y :: r).takeWhile p = ds ∧ (ds ++ y :: r).dropWhile p = y :: r := by
  induction ds with
  | nil => simp [List.takeWhile_cons, List.dropWhile_cons, hy]
  | cons d ds ih =>
    have hd : p d = true := hds d (by simp)
    have ih2 := ih (fun c hc => hds c (by simp [hc]))
    simp [List.takeWhile_cons, List.dropWhile_cons, hd, ih2.1, ih2.2]

theorem matchesFlowerPattern_iff (flower filename : PyStr) :
    matchesFlowerPattern flower filename = true ↔ FlowerPatternSpec flower filename := by
  unfold matchesFlowerPattern
  simp only [Bool.and_eq_true]
  constructor
  · rintro ⟨hpre, hne, hdot⟩
    rw [List.isPrefixOf_iff_prefix] at hpre
    obtain ⟨rest0, hrest0⟩ := hpre
    have hdrop : filename.drop (flower.length + 1) = rest0 := by
      rw [← hrest0]
      have : (flower ++ ['_']).length = flower.length + 1 := by simp
      rw [← this, List.drop_left]
    rw [hdrop] at hne hdot
    set ds := rest0.takeWhile Char.isDigit with hds
    have hsplit : ds ++ rest0.dropWhile Char.isDigit = rest0 :=
      List.takeWhile_append_dropWhile Char.isDigit rest0
    have hdsne : ds ≠ [] := by
      intro h
      rw [h] at hne
      simp at hne
    have hdigits : ∀ c ∈ ds, c.isDigit = true := fun c hc => List.mem_takeWhile_imp hc
    obtain ⟨z, zs, hz⟩ : ∃ z zs, rest0.dropWhile Char.isDigit = z :: zs := by
      cases h : rest0.dropWhile Char.isDigit with
      | nil => rw [h] at hdot; simp at hdot
      | cons z zs => exact ⟨z, zs, rfl⟩
    have hzdot : z = '.' := by
      rw [hz] at hdot
      simpa using hdot
    refine ⟨ds, zs, ?_, hdsne, hdigits⟩
    rw [← hrest0, ← hsplit, hz, hzdot]
    simp
  · rintro ⟨ds, rest, hdecomp, hdsne, hdigits⟩
    have heq : filename = (flower ++ ['_']) ++ (ds ++ '.' :: rest) := by
      rw [hdecomp]; simp
    have hdrop : filename.drop (flower.length + 1) = ds ++ '.' :: rest := by
      rw [heq]
      have : (flower ++ ['_']).length = flower.length + 1 := by simp
      rw [← this, List.drop_left]
    have hdotdigit : Char.isDigit '.' = false := rfl
    have htw := takeWhile_all_append (p := Char.isDigit) hdigits hdotdigit (r := rest)
    refine ⟨?_, ?_, ?_⟩
    · rw [List.isPrefixOf_iff_prefix]
      exact ⟨ds ++ '.' :: rest, heq.symm⟩
    · rw [hdrop, htw.1]
      simpa using hdsne
    · rw [hdrop, htw.2]
      rfl

/-- Assignment of one filename by the inner loop, lines 87-91: the file is
appended to the list of the first flower whose pattern it matches, then the
loop breaks; `List.find?` is exactly that first-match-and-stop loop. -/
def assignFlower (flowerTypes : List PyStr) (filename : PyStr) : Option PyStr :=
  flowerTypes.find? (fun flower => matchesFlowerPattern flower filename)

/-- Listing entries counted by `total_files_found` (lines 83-84): regular
files with a valid image extension, in listing order. -/
def validFiles (isFile : PyStr → Bool) (listing : List PyStr) : List PyStr :=
  listing.filter (fun fn => isFile fn && popHasValidExt fn)

/-- The list `flower_files[flower]` built by the scan loop (lines 78-91):
valid files whose first matching flower is this one, in listing order. -/
def flowerFilesOf (flowerTypes : List PyStr) (isFile : PyStr → Bool)
    (listing : List PyStr) (flower : PyStr) : List PyStr :=
  (validFiles isFile listing).filter
    (fun fn => assignFlower flowerTypes fn == some flower)

/-- The per-flower seed of line 105: `flower_seed = seed + hash(flower) % 1000`.
Python's built-in `hash` on `str` is salted per process (hash randomization),
so it enters the model as the parameter `pyHash`; Python `%` on a possibly
negative left operand and positive modulus agrees with `Int`'s `%`. -/
def flowerSeed (pyHash : PyStr → Int) (seed : Int) (flower : PyStr) : Int :=
  seed + pyHash flower % 1000

/-- Statistics recorded for one flower by lines 94-135. -/
structure FlowerResult where
  found : Nat
  sampleFiles : List PyStr
  warned : Bool
  copiedCount : Nat
deriving DecidableEq

/-- Per-category sampling and copying, lines 94-135. When fewer files than
requested are available, all of them are taken and a warning is printed
(lines 100-102); otherwise the files are sorted and `random.sample` draws
`samples_per_type` of them under the flower-derived seed (lines 104-111).
`random.sample` is an external library call, modelled by the parameter
`sampleFn` applied to the seed passed to `random.seed`; the success of each
`shutil.copy2` (whose exceptions lines 131-132 catch) by `copyOk`. Nothing in
this per-category code raises, so the model is a total function. -/
def processFlower (sampleFn : Int → List PyStr → Nat → List PyStr)
    (pyHash : PyStr → Int) (seed : Int) (samplesPerType : Nat)
    (copyOk : PyStr → Bool) (flower : PyStr) (files : List PyStr) : FlowerResult :=
  if files.length < samplesPerType then
    { found := files.length, sampleFiles := files, warned := true,
      copiedCount := (files.filter copyOk).length }
  else
    { found := files.length,
      sampleFiles := sampleFn (flowerSeed pyHash seed flower) (pySorted files) samplesPerType,
      warned := false,
      copiedCount := ((sampleFn (flowerSeed pyHash seed flower) (pySorted files)
        samplesPerType).filter copyOk).length }

/-- Source directory of the sampler: existence flag, listing, and which
entries are regular files. -/
structure SourceFolder where
  present : Bool
  listing : List PyStr
  isFile : PyStr → Bool

/-- Final content of the `stats` dictionary of
`extract_flower_samples_single_seed`. -/
structure SamplerStats where
  totalFilesFound : Nat
  perFlower : List (PyStr × FlowerResult)

/-- Model of `extract_flower_samples_single_seed` (lines 28-137): raises
`FileNotFoundError` when the source folder is missing (lines 73-74),
otherwise scans the listing and then samples and copies per flower. -/
def extractFlowerSamplesSingleSeed (src : SourceFolder) (flowerTypes : List PyStr)
    (samplesPerType : Nat) (seed : Int) (pyHash : PyStr → Int)
    (sampleFn : Int → List PyStr → Nat → List PyStr)
    (copyOk : PyStr → Bool) : Except PyStr SamplerStats :=
  if src.present = false then
    Except.error "Source folder not found".data
  else
    Except.ok
      { totalFilesFound := (validFiles src.isFile src.listing).length,
        perFlower := flowerTypes.map (fun flower =>
          (flower, processFlower sampleFn pyHash seed samplesPerType copyOk flower
            (flowerFilesOf flowerTypes src.isFile src.listing flower))) }

/-- Documented behaviour of `random.sample(population, k)` for
`k <= len(population)`: it returns `k` elements chosen from the population.
The sampler only calls it under that guard (line 100 vs line 110). -/
def SampleContract (sampleFn : Int → List PyStr → Nat → List PyStr) : Prop :=
  ∀ s xs k, k ≤ xs.length →
    (sampleFn s xs k).length = k ∧ ∀ x ∈ sampleFn s xs k, x ∈ xs

/-- Simplest instance of the contract: take the first `k` elements. -/
def takeSampleFn : Int → List PyStr → Nat → List PyStr := fun _ xs k => xs.take k

/-- Seed-sensitive instance of the contract: take from the front for even
seeds and from the back for odd ones. -/
def paritySampleFn : Int → List PyStr → Nat → List PyStr :=
  fun s xs k => if s % 2 = 0 then xs.take k else xs.reverse.take k

theorem takeSampleFn_contract : SampleContract takeSampleFn := by
  intro s xs k hk
  constructor
  · simpa [takeSampleFn] using hk
  · intro x hx
    exact List.mem_of_mem_take hx

theorem paritySampleFn_contract : SampleContract paritySampleFn := by
  intro s xs k hk
  unfold paritySampleFn
  split
  · constructor
    · simpa using hk
    · intro x hx
      exact List.mem_of_mem_take hx
  · constructor
    · simp
      omega
    · intro x hx
      have := List.mem_of_mem_take hx
      simpa using this

/-! Models of the batch scorer scripts. -/

/-- Suffix tuple of `qwen200.py` line 48 and `qwen_vl_iqa.py` line 38:
`img.endswith(('.jpg', '.png','.JPG','.png','.PNG', '.jpeg'))`, a
case-sensitive comparison. -/
def qwenExtTuple : List PyStr :=
  [".jpg".data, ".png".data, ".JPG".data, ".png".data, ".PNG".data, ".jpeg".data]

/-- Eligibility filter of `qwen200.py` and `qwen_vl_iqa.py`:
Python `endswith` on a tuple is true when some member is a suffix. -/
def qwenTupleEligible (img : PyStr) : Bool :=
  qwenExtTuple.any (fun ext => pyEndsWith img ext)

/-- Suffix tuple of `other_taxa.py` line 35:
`img.endswith(('.jpg', '.png','.JPG','.PNG', '.jpeg'))`. -/
def otherTaxaExtTuple : List PyStr :=
  [".jpg".data, ".png".data, ".JPG".data, ".PNG".data, ".jpeg".data]

/-- Eligibility filter of `other_taxa.py` line 34-35. -/
def otherTaxaEligible (img : PyStr) : Bool :=
  otherTaxaExtTuple.any (fun ext => pyEndsWith img ext)

/-- Suffix tuple of `no_reference/niqe.py` line 28. -/
def niqeExtTuple : List PyStr := [".jpg".data, ".jpeg".data, ".png".data]

/-- Eligibility filter of `niqe.py` lines 27-28:
`img.lower().endswith(('.jpg','.jpeg','.png'))`. -/
def niqeEligible (img : PyStr) : Bool :=
  niqeExtTuple.any (fun ext => pyEndsWith (pyLower img) ext)

/-- The specification's eligibility predicate (spec section 6): the filename
ends in `.jpg`, `.jpeg` or `.png` compared case-insensitively. -/
def claimEligible (img : PyStr) : Bool :=
  niqeExtTuple.any (fun ext => pyEndsWith (pyLower img) (pyLower ext))

/-- The literal `"Yes"`. -/
def yesLabel : PyStr := "Yes".data

/-- The literal `"No"`. -/
def noLabel : PyStr := "No".data

/-- The literal `"Error"` recorded for a failed image. -/
def errorLabel : PyStr := "Error".data

/-- The literal `"N/A"` recorded by `other_taxa.py` for a failed image. -/
def naLabel : PyStr := "N/A".data

/-- Label extraction shared by the classification scripts
(`qwen200.py` line 93, `other_taxa.py` line 88, `qwen_vl_iqa.py` line 79):
`result = "Yes" if "Yes" in response else "No"`. -/
def extractYesNo (response : PyStr) : PyStr :=
  if pyContains response yesLabel then yesLabel else noLabel

/-- Python `os.path.splitext` restricted to plain filenames with no path
separator (the scripts apply it to `os.listdir` entries): split at the last
dot, unless every character before that dot is itself a dot. -/
def splitext (p : PyStr) : PyStr × PyStr :=
  if (p.reverse.takeWhile (fun c => c != '.')).length = p.length then (p, [])
  else
    if (p.take (p.length - (p.reverse.takeWhile (fun c => c != '.')).length - 1)).any
        (fun c => c != '.') then
      (p.take (p.length - (p.reverse.takeWhile (fun c => c != '.')).length - 1),
       p.drop (p.length - (p.reverse.takeWhile (fun c => c != '.')).length - 1))
    else (p, [])

/-- Flower-name inference of `other_taxa.py` lines 48-53: strip the
extension, split the base name on underscores, and if there is more than one
part rejoin all but the last with underscores, otherwise keep the base name. -/
def inferFlowerName (imageFilename : PyStr) : PyStr :=
  if (pySplitChar '_' (splitext imageFilename).1).length > 1 then
    pyJoinUnderscore (pySplitChar '_' (splitext imageFilename).1).dropLast
  else (splitext imageFilename).1

/-- Row appended per image by `qwen200.py` lines 61-98 (and, with its own
header, `qwen_vl_iqa.py` lines 47-84): the model invocation on one image is
the oracle, returning the decoded response text or the raised exception's
message. -/
def qwenRow (oracle : PyStr → Except PyStr PyStr) (imageFile : PyStr) :
    PyStr × PyStr :=
  match oracle imageFile with
  | Except.ok response => (imageFile, extractYesNo response)
  | Except.error _ => (imageFile, errorLabel)

/-- Row appended per image by `other_taxa.py` lines 44-93: on success the
inferred flower name is recorded, on an exception the literal `"N/A"`. -/
def otherTaxaRow (oracle : PyStr → Except PyStr PyStr) (imageFilename : PyStr) :
    PyStr × PyStr × PyStr :=
  match oracle imageFilename with
  | Except.ok response => (imageFilename, extractYesNo response, inferFlowerName imageFilename)
  | Except.error _ => (imageFilename, errorLabel, naLabel)

/-- Scoring loop of `niqe.py` lines 31-50: each image goes to the valid table
with its score or to the corrupted table with the error message, in input
order. The score type is opaque to the control flow and stays a parameter. -/
def niqeProcess {σ : Type} (score : PyStr → Except PyStr σ) :
    List PyStr → List (PyStr × σ) × List (PyStr × PyStr)
  | [] => ([], [])
  | p :: ps =>
    match score p with
    | Except.ok s =>
      ((p, s) :: (niqeProcess score ps).1, (niqeProcess score ps).2)
    | Except.error e =>
      ((niqeProcess score ps).1, (p, e) :: (niqeProcess score ps).2)

/-- Flat input directory of `niqe.py`, `other_taxa.py` and `qwen_vl_iqa.py`. -/
structure FlatDir where
  present : Bool
  listing : List PyStr

/-- Module run of `niqe.py`: when the folder is missing, `os.listdir`
(line 27) raises an uncaught `FileNotFoundError` and the process aborts with
status 1, modelled as `Except.error`; otherwise every eligible image is
scored and both tables are produced — there is no emptiness check anywhere
in the script. -/
def niqeRun {σ : Type} (d : FlatDir) (score : PyStr → Except PyStr σ) :
    Except Unit (List (PyStr × σ) × List (PyStr × PyStr)) :=
  if d.present = false then Except.error ()
  else Except.ok (niqeProcess score (d.listing.filter niqeEligible))

/-- Seed directory of `qwen200.py`, holding one optional listing per flower
subfolder (line 44-50 skips absent subfolders). -/
structure SeedDir where
  present : Bool
  flowerListing : PyStr → Option (List PyStr)

/-- The three flower subfolders of `qwen200.py` line 42. -/
def qwen200Flowers : List PyStr :=
  ["Bellis_perennis".data, "Leucanthemum_vulgare".data, "Matricaria_chamomilla".data]

/-- Image collection of `qwen200.py` lines 41-50: eligible files of every
present flower subfolder, in flower order. -/
def qwen200Images (d : SeedDir) : List PyStr :=
  qwen200Flowers.flatMap (fun flower =>
    match d.flowerListing flower with
    | some listing => listing.filter qwenTupleEligible
    | none => [])

/-- Module run of `qwen200.py`: `exit(1)` when the seed folder is missing
(line 34) or no image was found (line 55); otherwise one row per image and
the CSV is written on completion (implicit exit status 0). -/
def qwen200Run (d : SeedDir) (oracle : PyStr → Except PyStr PyStr) :
    Nat × Option (List (PyStr × PyStr)) :=
  if d.present = false then (1, none)
  else
    if (qwen200Images d).isEmpty then (1, none)
    else (0, some ((qwen200Images d).map (qwenRow oracle)))

/-- Module run of `other_taxa.py`: `exit(1)` when the folder is missing
(line 29) or no eligible image is listed (line 41); otherwise one
three-column row per image and the CSV is written (exit status 0). -/
def otherTaxaRun (d : FlatDir) (oracle : PyStr → Except PyStr PyStr) :
    Nat × Option (List (PyStr × PyStr × PyStr)) :=
  if d.present = false then (1, none)
  else
    if (d.listing.filter otherTaxaEligible).isEmpty then (1, none)
    else (0, some ((d.listing.filter otherTaxaEligible).map (otherTaxaRow oracle)))

/-- Module run of `qwen_vl_iqa.py`: `exit(1)` when the folder is missing
(line 32) or no eligible image is listed (line 43); otherwise one row per
image and the CSV is written (exit status 0). -/
def qwenVlRun (d : FlatDir) (oracle : PyStr → Except PyStr PyStr) :
    Nat × Option (List (PyStr × PyStr)) :=
  if d.present = false then (1, none)
  else
    if (d.listing.filter qwenTupleEligible).isEmpty then (1, none)
    else (0, some ((d.listing.filter qwenTupleEligible).map (qwenRow oracle)))

/-! Helper lemmas about the script models. -/

theorem extractYesNo_ne_error (response : PyStr) :
    extractYesNo response ≠ errorLabel := by
  unfold extractYesNo
  split <;> decide

theorem length_filter_partition {α : Type} (p : α → Bool) (l : List α) :
    (l.filter p).length + (l.filter (fun x => !p x)).length = l.length := by
  induction l with
  | nil => rfl
  | cons x xs ih =>
    cases h : p x <;> simp [List.filter_cons, h] <;> omega

theorem isOk_ok {ε α : Type} (a : α) : (Except.ok a : Except ε α).isOk = true := rfl

theorem isOk_error {ε α : Type} (e : ε) : (Except.error e : Except ε α).isOk = false := rfl

theorem niqeProcess_counts {σ : Type} (score : PyStr → Except PyStr σ)
    (paths : List PyStr) :
    (niqeProcess score paths).1.length
        = (paths.filter (fun p => (score p).isOk)).length
      ∧ (niqeProcess score paths).1.length + (niqeProcess score paths).2.length
        = paths.length := by
  induction paths with
  | nil => exact ⟨rfl, rfl⟩
  | cons p ps ih =>
    cases h : score p with
    | ok s =>
      refine ⟨?_, ?_⟩ <;>
        simp [niqeProcess, h, List.filter_cons, isOk_ok, isOk_error, ih.1] <;> omega
    | error e =>
      refine ⟨?_, ?_⟩ <;>
        simp [niqeProcess, h, List.filter_cons, isOk_ok, isOk_error, ih.1] <;> omega

theorem qwenRows_counts (oracle : PyStr → Except PyStr PyStr) (paths : List PyStr) :
    ((paths.map (qwenRow oracle)).filter (fun r => !(r.2 == errorLabel))).length
        = (paths.filter (fun p => (oracle p).isOk)).length
      ∧ ((paths.map (qwenRow oracle)).filter (fun r => r.2 == errorLabel)).length
        = (paths.filter (fun p => !(oracle p).isOk)).length := by
  induction paths with
  | nil => exact ⟨rfl, rfl⟩
  | cons p ps ih =>
    cases h : oracle p with
    | ok resp =>
      refine ⟨?_, ?_⟩ <;>
        simp [qwenRow, h, List.filter_cons, isOk_ok, isOk_error,
          extractYesNo_ne_error, ih.1, ih.2]
    | error e =>
      refine ⟨?_, ?_⟩ <;>
        simp [qwenRow, h, List.filter_cons, isOk_ok, isOk_error, ih.1, ih.2]

theorem pyLower_ext_jpg : pyLower ['.', 'j', 'p', 'g'] = ['.', 'j', 'p', 'g'] := by decide

theorem pyLower_ext_jpeg :
    pyLower ['.', 'j', 'p', 'e', 'g'] = ['.', 'j', 'p', 'e', 'g'] := by decide

theorem pyLower_ext_png : pyLower ['.', 'p', 'n', 'g'] = ['.', 'p', 'n', 'g'] := by decide

theorem pyLower_ext_capJpg : pyLower ['.', 'J', 'P', 'G'] = ['.', 'j', 'p', 'g'] := by decide

theorem pyLower_ext_capJpeg :
    pyLower ['.', 'J', 'P', 'E', 'G'] = ['.', 'j', 'p', 'e', 'g'] := by decide

theorem pyLower_ext_capPng : pyLower ['.', 'P', 'N', 'G'] = ['.', 'p', 'n', 'g'] := by decide

theorem niqeEligible_eq_claimEligible (fn : PyStr) :
    niqeEligible fn = claimEligible fn := by
  unfold niqeEligible claimEligible niqeExtTuple
  simp only [List.any_cons, List.any_nil,
    pyLower_ext_jpg, pyLower_ext_jpeg, pyLower_ext_png]

theorem popHasValidExt_eq_claimEligible (fn : PyStr) :
    popHasValidExt fn = claimEligible fn := by
  unfold popHasValidExt claimEligible validExtensions niqeExtTuple
  simp only [List.any_cons, List.any_nil,
    pyLower_ext_jpg, pyLower_ext_jpeg, pyLower_ext_png,
    pyLower_ext_capJpg, pyLower_ext_capJpeg, pyLower_ext_capPng]
  cases h1 : pyEndsWith (pyLower fn) ['.', 'j', 'p', 'g'] <;>
    cases h2 : pyEndsWith (pyLower fn) ['.', 'j', 'p', 'e', 'g'] <;>
      cases h3 : pyEndsWith (pyLower fn) ['.', 'p', 'n', 'g'] <;>
        simp [h1, h2, h3]

theorem otherTaxaEligible_eq_qwenTupleEligible (fn : PyStr) :
    otherTaxaEligible fn = qwenTupleEligible fn := by
  unfold otherTaxaEligible qwenTupleEligible otherTaxaExtTuple qwenExtTuple
  simp only [List.any_cons, List.any_nil]
  cases h1 : pyEndsWith fn ['.', 'j', 'p', 'g'] <;>
    cases h2 : pyEndsWith fn ['.', 'p', 'n', 'g'] <;>
      cases h3 : pyEndsWith fn ['.', 'J', 'P', 'G'] <;>
        cases h4 : pyEndsWith fn ['.', 'P', 'N', 'G'] <;>
          cases h5 : pyEndsWith fn ['.', 'j', 'p', 'e', 'g'] <;>
            simp [h1, h2, h3, h4, h5]

theorem qwenTupleEligible_le_claimEligible (fn : PyStr)
    (h : qwenTupleEligible fn = true) : claimEligible fn = true := by
  unfold qwenTupleEligible qwenExtTuple at h
  rw [List.any_eq_true] at h
  obtain ⟨ext, hmem, hsuf⟩ := h
  have hlow := pyEndsWith_lower hsuf
  unfold claimEligible
  rw [List.any_eq_true]
  simp only [List.mem_cons, List.not_mem_nil, or_false] at hmem
  rcases hmem with rfl | rfl | rfl | rfl | rfl | rfl
  · exact ⟨".jpg".data, by simp [niqeExtTuple], hlow⟩
  · exact ⟨".png".data, by simp [niqeExtTuple], hlow⟩
  · exact ⟨".jpg".data, by simp [niqeExtTuple], hlow⟩
  · exact ⟨".png".data, by simp [niqeExtTuple], hlow⟩
  · exact ⟨".png".data, by simp [niqeExtTuple], hlow⟩
  · exact ⟨".jpeg".data, by simp [niqeExtTuple], hlow⟩

theorem pySplitChar_length (c : Char) (s : PyStr) :
    (pySplitChar c s).length = s.count c + 1 := by
  induction s with
  | nil => rfl
  | cons x xs ih =>
    unfold pySplitChar
    cases h : pySplitChar c xs with
    | nil => rw [h] at ih; simp at ih
    | cons r rs =>
      rw [h] at ih
      simp only [List.length_cons] at ih
      by_cases hx : x = c
      · subst hx
        have hbeq : (x == x) = true := by simp
        simp [hbeq, List.count_cons]
        omega
      · have hbeq : (x == c) = false := by simpa using hx
        simp [hbeq, List.count_cons, hx]
        omega

/-! Helper lemmas about the per-flower sampling step. -/

section ProcessFlower

variable (sampleFn : Int → List PyStr → Nat → List PyStr) (pyHash : PyStr → Int)
  (seed : Int) (samplesPerType : Nat) (copyOk : PyStr → Bool) (flower : PyStr)
  (files : List PyStr)

theorem processFlower_found :
    (processFlower sampleFn pyHash seed samplesPerType copyOk flower files).found
      = files.length := by
  unfold processFlower
  split <;> rfl

theorem processFlower_sample_length (hs : SampleContract sampleFn) :
    (processFlower sampleFn pyHash seed samplesPerType copyOk flower files).sampleFiles.length
      = min samplesPerType files.length := by
  unfold processFlower
  split
  case isTrue h =>
    simp only []
    omega
  case isFalse h =>
    have hle : samplesPerType ≤ files.length := Nat.le_of_not_lt h
    have hc := hs (flowerSeed pyHash seed flower) (pySorted files) samplesPerType
      (by rw [length_pySorted]; exact hle)
    simp only [hc.1]
    omega

theorem processFlower_sample_mem (hs : SampleContract sampleFn) :
    ∀ x ∈ (processFlower sampleFn pyHash seed samplesPerType copyOk flower files).sampleFiles,
      x ∈ files := by
  unfold processFlower
  split
  case isTrue h => intro x hx; simpa using hx
  case isFalse h =>
    have hle : samplesPerType ≤ files.length := Nat.le_of_not_lt h
    have hc := hs (flowerSeed pyHash seed flower) (pySorted files) samplesPerType
      (by rw [length_pySorted]; exact hle)
    intro x hx
    exact (mem_pySorted x files).mp (hc.2 x hx)

theorem processFlower_copied_le (hs : SampleContract sampleFn) :
    (processFlower sampleFn pyHash seed samplesPerType copyOk flower files).copiedCount
      ≤ files.length := by
  unfold processFlower
  split
  case isTrue h => simpa using List.length_filter_le copyOk files
  case isFalse h =>
    have hle : samplesPerType ≤ files.length := Nat.le_of_not_lt h
    have hc := hs (flowerSeed pyHash seed flower) (pySorted files) samplesPerType
      (by rw [length_pySorted]; exact hle)
    calc ((sampleFn (flowerSeed pyHash seed flower) (pySorted files)
            samplesPerType).filter copyOk).length
        ≤ (sampleFn (flowerSeed pyHash seed flower) (pySorted files)
            samplesPerType).length := List.length_filter_le _ _
      _ = samplesPerType := hc.1
      _ ≤ files.length := hle

end ProcessFlower

/-! Concrete data used to settle the claims on explicit inputs. -/

/-- Hash function of a process whose salted hash maps every string to 0. -/
def hashZero : PyStr → Int := fun _ => 0

/-- Hash function of a process whose salted hash maps every string to 1. -/
def hashOne : PyStr → Int := fun _ => 1

/-- Six files of one category, as `{category}_{number}.{ext}` names. -/
def filesC1 : List PyStr :=
  ["A_1.jpg".data, "A_2.jpg".data, "A_3.jpg".data,
   "A_4.jpg".data, "A_5.jpg".data, "A_6.jpg".data]

/-- Three files of category `A` (the spec's worked example). -/
def filesA3 : List PyStr := ["A_1.jpg".data, "A_2.jpg".data, "A_3.jpg".data]

/-- Ten files of category `B` (the spec's worked example). -/
def filesB10 : List PyStr :=
  ["B_01.jpg".data, "B_02.jpg".data, "B_03.jpg".data, "B_04.jpg".data,
   "B_05.jpg".data, "B_06.jpg".data, "B_07.jpg".data, "B_08.jpg".data,
   "B_09.jpg".data, "B_10.jpg".data]

/-- C1: the claim says the per-category selection is a deterministic function
of the base seed, the category name and the sorted file list only. It is not:
line 105 computes `flower_seed = seed + hash(flower) % 1000` with Python's
built-in `hash`, which is salted per process, so the seed handed to
`random.sample` — and with it the selected set — also depends on the process's
hash salt. This contradicts the script's own stated purpose of reproducible
sampling (docstring of `set_reproducible_seed`, comment on line 104), so the
claim is recorded as a code bug. Concretely: under a sampling function that
honours the `random.sample` contract, a process whose salted hash gives
`hash("A") % 1000 = 0` selects `A_1.jpg` while a process where it gives 1
does not, at the same base seed 42 and the same six files. -/
theorem c1_sampling_depends_on_process_hash :
    SampleContract paritySampleFn
      ∧ flowerSeed hashZero 42 "A".data ≠ flowerSeed hashOne 42 "A".data
      ∧ "A_1.jpg".data ∈
          (processFlower paritySampleFn hashZero 42 5 (fun _ => true) "A".data
            filesC1).sampleFiles
      ∧ "A_1.jpg".data ∉
          (processFlower paritySampleFn hashOne 42 5 (fun _ => true) "A".data
            filesC1).sampleFiles :=
  ⟨paritySampleFn_contract, by decide, by decide, by decide⟩

/-- C2: a category with fewer matching files than requested contributes all
its files and raises the warning flag (and nothing is raised: the per-category
step is total); a category with at least `samples_per_type` files contributes
exactly `samples_per_type` sampled files and no warning; in all cases the
selection has size `min samples_per_type count`, is drawn from the category's
files, and never copies more files than exist. -/
theorem c2_small_category_takes_all (sampleFn : Int → List PyStr → Nat → List PyStr)
    (hs : SampleContract sampleFn) (pyHash : PyStr → Int) (seed : Int)
    (samplesPerType : Nat) (copyOk : PyStr → Bool) (flower : PyStr)
    (files : List PyStr) :
    (files.length < samplesPerType →
        (processFlower sampleFn pyHash seed samplesPerType copyOk flower files).sampleFiles
            = files
          ∧ (processFlower sampleFn pyHash seed samplesPerType copyOk flower files).warned
            = true)
      ∧ (samplesPerType ≤ files.length →
          (processFlower sampleFn pyHash seed samplesPerType copyOk flower
              files).sampleFiles.length = samplesPerType
            ∧ (processFlower sampleFn pyHash seed samplesPerType copyOk flower files).warned
              = false)
      ∧ (processFlower sampleFn pyHash seed samplesPerType copyOk flower
          files).sampleFiles.length = min samplesPerType files.length
      ∧ (∀ x ∈ (processFlower sampleFn pyHash seed samplesPerType copyOk flower
          files).sampleFiles, x ∈ files)
      ∧ (processFlower sampleFn pyHash seed samplesPerType copyOk flower files).copiedCount
          ≤ files.length := by
  refine ⟨?_, ?_,
    processFlower_sample_length sampleFn pyHash seed samplesPerType copyOk flower files hs,
    processFlower_sample_mem sampleFn pyHash seed samplesPerType copyOk flower files hs,
    processFlower_copied_le sampleFn pyHash seed samplesPerType copyOk flower files hs⟩
  · intro h
    unfold processFlower
    rw [if_pos h]
    exact ⟨rfl, rfl⟩
  · intro h
    constructor
    · rw [processFlower_sample_length sampleFn pyHash seed samplesPerType copyOk flower
        files hs]
      omega
    · unfold processFlower
      rw [if_neg (Nat.not_lt.mpr h)]

/-- Witness for C2 at the spec's worked example: categories with 3 and 10
files at `samples_per_type = 5` — all 3 of the small category are taken,
exactly 5 of the large one. -/
theorem c2_witness :
    (processFlower takeSampleFn hashZero 42 5 (fun _ => true) "A".data
        filesA3).sampleFiles = filesA3
      ∧ (processFlower takeSampleFn hashZero 42 5 (fun _ => true) "B".data
          filesB10).sampleFiles.length = 5 := by
  constructor
  · exact ((c2_small_category_takes_all takeSampleFn takeSampleFn_contract hashZero 42 5
      (fun _ => true) "A".data filesA3).1 (by decide)).1
  · exact ((c2_small_category_takes_all takeSampleFn takeSampleFn_contract hashZero 42 5
      (fun _ => true) "B".data filesB10).2.1 (by decide)).1

/-- C9: for every category recorded in the final statistics, the selection has
size exactly `min samples_per_type count`, the copied count never exceeds the
per-category file count, and the per-category file count never exceeds
`total_files_found`. -/
theorem c9_stats_ordering (src : SourceFolder) (flowerTypes : List PyStr)
    (sampleFn : Int → List PyStr → Nat → List PyStr) (hs : SampleContract sampleFn)
    (pyHash : PyStr → Int) (seed : Int) (samplesPerType : Nat) (copyOk : PyStr → Bool)
    (stats : SamplerStats) (flower : PyStr) (r : FlowerResult)
    (hstats : extractFlowerSamplesSingleSeed src flowerTypes samplesPerType seed pyHash
        sampleFn copyOk = Except.ok stats)
    (hmem : (flower, r) ∈ stats.perFlower) :
    r.sampleFiles.length = min samplesPerType r.found
      ∧ r.copiedCount ≤ r.found
      ∧ r.found ≤ stats.totalFilesFound := by
  unfold extractFlowerSamplesSingleSeed at hstats
  by_cases hp : src.present = false
  · rw [if_pos hp] at hstats
    exact absurd hstats (by simp)
  · rw [if_neg hp] at hstats
    have hstats2 := Except.ok.inj hstats
    rw [← hstats2] at hmem
    simp only [List.mem_map] at hmem
    obtain ⟨fl, hfl, heq⟩ := hmem
    rw [Prod.mk.injEq] at heq
    obtain ⟨rfl, rfl⟩ := heq
    refine ⟨?_, ?_, ?_⟩
    · rw [processFlower_sample_length _ _ _ _ _ _ _ hs, processFlower_found]
    · rw [processFlower_found]
      exact processFlower_copied_le _ _ _ _ _ _ _ hs
    · rw [processFlower_found, ← hstats2]
      unfold flowerFilesOf
      exact List.length_filter_le _ _

/-- Source folder with two `A` images, one `B` image and one non-image. -/
def srcW : SourceFolder :=
  { present := true,
    listing := ["A_1.jpg".data, "A_2.jpg".data, "B_1.jpg".data, "x.txt".data],
    isFile := fun _ => true }

/-- The statistics the sampler produces on `srcW` with categories `A`, `B`,
one sample per type, seed 42, under `takeSampleFn` and all-zero hashing. -/
def statsW : SamplerStats :=
  { totalFilesFound := 3,
    perFlower :=
      [("A".data,
        { found := 2, sampleFiles := ["A_1.jpg".data], warned := false, copiedCount := 1 }),
       ("B".data,
        { found := 1, sampleFiles := ["B_1.jpg".data], warned := false, copiedCount := 1 })] }

/-- The `A` row of `statsW`. -/
def rAW : FlowerResult :=
  { found := 2, sampleFiles := ["A_1.jpg".data], warned := false, copiedCount := 1 }

/-- Witness for C9 on the concrete run recorded in `statsW`. -/
theorem c9_witness :
    rAW.sampleFiles.length = min 1 rAW.found
      ∧ rAW.copiedCount ≤ rAW.found
      ∧ rAW.found ≤ statsW.totalFilesFound :=
  c9_stats_ordering srcW ["A".data, "B".data] takeSampleFn takeSampleFn_contract
    hashZero 42 1 (fun _ => true) statsW "A".data rAW rfl (by decide)

/-- C5: a valid image file is a member of a category's list exactly when that
category is the first in list order whose `{category}_{number}.{ext}` pattern
the filename matches; consequently it lies in at most one category's list, and
in none when no category's pattern matches. -/
theorem c5_first_match_assignment (flowerTypes : List PyStr) (isFile : PyStr → Bool)
    (listing : List PyStr) (fn : PyStr)
    (hvalid : fn ∈ validFiles isFile listing) :
    (∀ flower, fn ∈ flowerFilesOf flowerTypes isFile listing flower ↔
        ∃ pre post, flowerTypes = pre ++ flower :: post
          ∧ FlowerPatternSpec flower fn
          ∧ ∀ g ∈ pre, ¬ FlowerPatternSpec g fn)
      ∧ (∀ fl1 fl2, fn ∈ flowerFilesOf flowerTypes isFile listing fl1 →
          fn ∈ flowerFilesOf flowerTypes isFile listing fl2 → fl1 = fl2)
      ∧ ((∀ flower ∈ flowerTypes, ¬ FlowerPatternSpec flower fn) →
          ∀ flower, fn ∉ flowerFilesOf flowerTypes isFile listing flower) := by
  have hkey : ∀ flower, fn ∈ flowerFilesOf flowerTypes isFile listing flower ↔
      assignFlower flowerTypes fn = some flower := by
    intro flower
    unfold flowerFilesOf
    rw [List.mem_filter]
    constructor
    · rintro ⟨-, h⟩
      simpa using h
    · intro h
      exact ⟨hvalid, by simp [h]⟩
  refine ⟨?_, ?_, ?_⟩
  · intro flower
    rw [hkey]
    unfold assignFlower
    rw [List.find?_eq_some]
    constructor
    · rintro ⟨hfb, as, bs, hsplit, hprev⟩
      refine ⟨as, bs, hsplit, (matchesFlowerPattern_iff flower fn).mp hfb, ?_⟩
      intro g hg hspec
      have hfalse := hprev g hg
      rw [Bool.not_eq_true'] at hfalse
      rw [← matchesFlowerPattern_iff] at hspec
      rw [hspec] at hfalse
      cases hfalse
    · rintro ⟨pre, post, hsplit, hspec, hprev⟩
      refine ⟨(matchesFlowerPattern_iff flower fn).mpr hspec, pre, post, hsplit, ?_⟩
      intro g hg
      rw [Bool.not_eq_true']
      cases hb : matchesFlowerPattern g fn with
      | false => rfl
      | true => exact absurd ((matchesFlowerPattern_iff g fn).mp hb) (hprev g hg)
  · intro fl1 fl2 h1 h2
    rw [hkey] at h1 h2
    exact Option.some.inj (h1.symm.trans h2)
  · intro hnone flower hmem2
    rw [hkey] at hmem2
    have hin : flower ∈ flowerTypes := List.mem_of_find?_eq_some hmem2
    have hp := List.find?_some (p := fun g => matchesFlowerPattern g fn) hmem2
    exact hnone flower hin ((matchesFlowerPattern_iff flower fn).mp hp)

/-- Witness for C5: with categories `["A", "B"]` and the single valid file
`A_1.jpg`, the theorem places the file in the list of category `A`. -/
theorem c5_witness :
    "A_1.jpg".data ∈
      flowerFilesOf ["A".data, "B".data] (fun _ => true) ["A_1.jpg".data] "A".data := by
  have h := (c5_first_match_assignment ["A".data, "B".data] (fun _ => true)
    ["A_1.jpg".data] "A_1.jpg".data (by decide)).1 "A".data
  apply h.mpr
  refine ⟨[], ["B".data], rfl, ?_, by simp⟩
  exact ⟨['1'], "jpg".data, by decide, by decide, by decide⟩

/-- C3: in the NIQE scorer the valid table has one row per input whose scoring
succeeded and valid plus corrupted rows cover every input exactly once; in the
qwen classification loop the rows not labelled `"Error"` count the successful
inputs and together with the `"Error"` rows cover every input exactly once. -/
theorem c3_valid_plus_error_rows_cover_inputs {σ : Type} (score : PyStr → Except PyStr σ)
    (oracle : PyStr → Except PyStr PyStr) (paths : List PyStr) :
    (niqeProcess score paths).1.length
        = (paths.filter (fun p => (score p).isOk)).length
      ∧ (niqeProcess score paths).1.length + (niqeProcess score paths).2.length
        = paths.length
      ∧ ((paths.map (qwenRow oracle)).filter (fun r => !(r.2 == errorLabel))).length
        = (paths.filter (fun p => (oracle p).isOk)).length
      ∧ ((paths.map (qwenRow oracle)).filter (fun r => !(r.2 == errorLabel))).length
          + ((paths.map (qwenRow oracle)).filter (fun r => r.2 == errorLabel)).length
        = paths.length := by
  have hn := niqeProcess_counts score paths
  have hq := qwenRows_counts oracle paths
  refine ⟨hn.1, hn.2, hq.1, ?_⟩
  rw [hq.1, hq.2]
  exact length_filter_partition (fun p => (oracle p).isOk) paths

/-- C4: the classification scripts record `"Yes"` exactly when the substring
`"Yes"` occurs in the model response, `"No"` otherwise; in particular the
response `"No, the image is clear."` is recorded as `"No"`. -/
theorem c4_yes_substring_label (response : PyStr) :
    (extractYesNo response = yesLabel ↔ "Yes".data <:+: response)
      ∧ (extractYesNo response = yesLabel ∨ extractYesNo response = noLabel)
      ∧ extractYesNo "No, the image is clear.".data = noLabel := by
  refine ⟨⟨?_, ?_⟩, ?_, by decide⟩
  · intro h
    by_cases hc : pyContains response yesLabel = true
    · exact (pyContains_iff response yesLabel).mp hc
    · exfalso
      unfold extractYesNo at h
      rw [if_neg hc] at h
      exact absurd h (by decide)
  · intro h
    have hc : pyContains response yesLabel = true := (pyContains_iff response yesLabel).mpr h
    unfold extractYesNo
    rw [if_pos hc]
  · by_cases hc : pyContains response yesLabel = true
    · left
      unfold extractYesNo
      rw [if_pos hc]
    · right
      unfold extractYesNo
      rw [if_neg hc]

/-- Seed directory whose three flower subfolders all hold one eligible image. -/
def seedDirW : SeedDir :=
  { present := true, flowerListing := fun _ => some ["Bellis_perennis_1.jpg".data] }

/-- Flat directory with one eligible image. -/
def flatDirW : FlatDir := { present := true, listing := ["Bellis_perennis_1.jpg".data] }

/-- Seed directory that does not exist. -/
def emptySeedDir : SeedDir := { present := false, flowerListing := fun _ => none }

/-- Model oracle that raises on every image. -/
def failOracle : PyStr → Except PyStr PyStr := fun _ => Except.error "boom".data

/-- Model oracle that answers every image with `"Yes"`. -/
def okOracle : PyStr → Except PyStr PyStr := fun _ => Except.ok "Yes".data

/-- Scoring oracle that raises on every image. -/
def failScore : PyStr → Except PyStr Nat := fun _ => Except.error "corrupt".data

/-- C6: when a batch run proceeds (directory present, images found), every
image gets exactly one row no matter how many of them fail: a failing image
is recorded as an `"Error"` row (with `"N/A"` as the flower in
`other_taxa.py`) carrying its filename, the rows of every other image are
still produced, the CSV is written, and the exit status is the same as under
any other per-image outcomes — a single bad input never halts the batch. -/
theorem c6_per_image_failure_is_isolated (d : SeedDir) (f : FlatDir)
    (oracle oracle2 : PyStr → Except PyStr PyStr) (img img2 e e2 : PyStr)
    (hp : d.present = true) (hne : (qwen200Images d).isEmpty = false)
    (hmem : img ∈ qwen200Images d) (herr : oracle img = Except.error e)
    (hfp : f.present = true)
    (hfne : (f.listing.filter otherTaxaEligible).isEmpty = false)
    (hmem2 : img2 ∈ f.listing.filter otherTaxaEligible)
    (herr2 : oracle img2 = Except.error e2) :
    (qwen200Run d oracle).1 = 0
      ∧ (qwen200Run d oracle).2 = some ((qwen200Images d).map (qwenRow oracle))
      ∧ (img, errorLabel) ∈ (qwen200Images d).map (qwenRow oracle)
      ∧ (qwen200Run d oracle).1 = (qwen200Run d oracle2).1
      ∧ (otherTaxaRun f oracle).1 = 0
      ∧ (otherTaxaRun f oracle).2
          = some ((f.listing.filter otherTaxaEligible).map (otherTaxaRow oracle))
      ∧ (img2, errorLabel, naLabel)
          ∈ (f.listing.filter otherTaxaEligible).map (otherTaxaRow oracle)
      ∧ (otherTaxaRun f oracle).1 = (otherTaxaRun f oracle2).1 := by
  refine ⟨?_, ?_, ?_, ?_, ?_, ?_, ?_, ?_⟩
  · simp [qwen200Run, hp, hne]
  · simp [qwen200Run, hp, hne]
  · exact List.mem_map.mpr ⟨img, hmem, by simp [qwenRow, herr]⟩
  · simp [qwen200Run, hp, hne]
  · simp [otherTaxaRun, hfp, hfne]
  · simp [otherTaxaRun, hfp, hfne]
  · exact List.mem_map.mpr ⟨img2, hmem2, by simp [otherTaxaRow, herr2]⟩
  · simp [otherTaxaRun, hfp, hfne]

/-- Witness for C6: in a seed directory with one eligible image per flower
subfolder, an oracle failing on every image still yields a completed run
(status 0), an `"Error"` row for the failing image, and the same exit status
as an oracle that always succeeds. -/
theorem c6_witness :
    (qwen200Run seedDirW failOracle).1 = 0
      ∧ ("Bellis_perennis_1.jpg".data, errorLabel)
          ∈ (qwen200Images seedDirW).map (qwenRow failOracle)
      ∧ (qwen200Run seedDirW failOracle).1 = (qwen200Run seedDirW okOracle).1
      ∧ (otherTaxaRun flatDirW failOracle).1 = 0 := by
  have h := c6_per_image_failure_is_isolated seedDirW flatDirW failOracle okOracle
    "Bellis_perennis_1.jpg".data "Bellis_perennis_1.jpg".data "boom".data "boom".data
    rfl (by decide) (by decide) rfl rfl (by decide) (by decide) rfl
  exact ⟨h.1, h.2.2.1, h.2.2.2.1, h.2.2.2.2.1⟩

/-- C7, amended: the three qwen scripts exit early with status 1 when their
input directory is missing or lists no eligible image, and otherwise complete
(status 0) with a CSV; `niqe.py` aborts on a missing directory (uncaught
`FileNotFoundError`, process status 1) but performs no emptiness check — with
the directory present it always completes, eligible images or not. -/
theorem c7_exit_codes_amended {σ : Type} (d1 : SeedDir) (d2 d3 d4 : FlatDir)
    (oracle : PyStr → Except PyStr PyStr) (score : PyStr → Except PyStr σ) :
    (d1.present = false → qwen200Run d1 oracle = (1, none))
      ∧ (d1.present = true → (qwen200Images d1).isEmpty = true →
          qwen200Run d1 oracle = (1, none))
      ∧ (d1.present = true → (qwen200Images d1).isEmpty = false →
          (qwen200Run d1 oracle).1 = 0 ∧ (qwen200Run d1 oracle).2.isSome = true)
      ∧ (d2.present = false → otherTaxaRun d2 oracle = (1, none))
      ∧ (d2.present = true → (d2.listing.filter otherTaxaEligible).isEmpty = true →
          otherTaxaRun d2 oracle = (1, none))
      ∧ (d2.present = true → (d2.listing.filter otherTaxaEligible).isEmpty = false →
          (otherTaxaRun d2 oracle).1 = 0 ∧ (otherTaxaRun d2 oracle).2.isSome = true)
      ∧ (d3.present = false → qwenVlRun d3 oracle = (1, none))
      ∧ (d3.present = true → (d3.listing.filter qwenTupleEligible).isEmpty = true →
          qwenVlRun d3 oracle = (1, none))
      ∧ (d3.present = true → (d3.listing.filter qwenTupleEligible).isEmpty = false →
          (qwenVlRun d3 oracle).1 = 0 ∧ (qwenVlRun d3 oracle).2.isSome = true)
      ∧ (d4.present = false → niqeRun d4 score = Except.error ())
      ∧ (d4.present = true → (niqeRun d4 score).isOk = true) := by
  refine ⟨?_, ?_, ?_, ?_, ?_, ?_, ?_, ?_, ?_, ?_, ?_⟩
  · intro h1
    simp [qwen200Run, h1]
  · intro h1 h2
    simp [qwen200Run, h1, h2]
  · intro h1 h2
    simp [qwen200Run, h1, h2]
  · intro h1
    simp [otherTaxaRun, h1]
  · intro h1 h2
    simp [otherTaxaRun, h1, h2]
  · intro h1 h2
    simp [otherTaxaRun, h1, h2]
  · intro h1
    simp [qwenVlRun, h1]
  · intro h1 h2
    simp [qwenVlRun, h1, h2]
  · intro h1 h2
    simp [qwenVlRun, h1, h2]
  · intro h1
    simp [niqeRun, h1]
  · intro h1
    simp [niqeRun, h1, isOk_ok]

/-- Flat directory that exists but lists no eligible image. -/
def niqeNoImagesDir : FlatDir := { present := true, listing := ["readme.txt".data] }

/-- Counterexample to C7 as stated: `niqe.py` on an existing directory with no
eligible image completes normally (implicit status 0) and writes two empty
tables instead of exiting early with status 1. -/
theorem c7_counterexample :
    niqeNoImagesDir.listing.filter niqeEligible = []
      ∧ niqeRun niqeNoImagesDir failScore = Except.ok ([], []) :=
  ⟨rfl, rfl⟩

/-- Witness for C7: a missing seed directory makes `qwen200.py` exit with
status 1 and no CSV, while `niqe.py` on a present directory completes. -/
theorem c7_witness :
    qwen200Run emptySeedDir failOracle = (1, none)
      ∧ (niqeRun niqeNoImagesDir failScore).isOk = true := by
  have h := c7_exit_codes_amended emptySeedDir niqeNoImagesDir niqeNoImagesDir
    niqeNoImagesDir failOracle failScore
  exact ⟨h.1 rfl, h.2.2.2.2.2.2.2.2.2.2 rfl⟩

/-- C8, amended: `niqe.py` and the sampler accept exactly the extensions
`.jpg`, `.jpeg`, `.png` compared case-insensitively; the three qwen scripts
instead compare case-sensitively against the literal suffixes
`.jpg`, `.png`, `.JPG`, `.PNG`, `.jpeg` (the two flat scripts use the same
tuple), so everything they accept is accepted by the case-insensitive rule but
not conversely — e.g. `.JPEG` files are ineligible for them. -/
theorem c8_eligibility_amended (fn : PyStr) :
    niqeEligible fn = claimEligible fn
      ∧ popHasValidExt fn = claimEligible fn
      ∧ otherTaxaEligible fn = qwenTupleEligible fn
      ∧ (qwenTupleEligible fn = true → claimEligible fn = true) :=
  ⟨niqeEligible_eq_claimEligible fn, popHasValidExt_eq_claimEligible fn,
    otherTaxaEligible_eq_qwenTupleEligible fn, qwenTupleEligible_le_claimEligible fn⟩

/-- Counterexample to C8 as stated: the file `Bellis_perennis_1.JPEG` has a
`.jpg`-family extension case-insensitively (and `niqe.py` accepts it), yet
`qwen200.py`, `qwen_vl_iqa.py` and `other_taxa.py` reject it. -/
theorem c8_counterexample :
    claimEligible "Bellis_perennis_1.JPEG".data = true
      ∧ niqeEligible "Bellis_perennis_1.JPEG".data = true
      ∧ qwenTupleEligible "Bellis_perennis_1.JPEG".data = false
      ∧ otherTaxaEligible "Bellis_perennis_1.JPEG".data = false := by
  decide

/-- Witness for C8: a `.JPG` file accepted by the qwen tuple is accepted by
the case-insensitive rule. -/
theorem c8_witness : claimEligible "a.JPG".data = true :=
  (c8_eligibility_amended "a.JPG".data).2.2.2 (by decide)

/-- C10: in `other_taxa.py`, when the extension-stripped base name holds an
underscore the inferred flower label is every underscore-separated part but
the last, rejoined with underscores; with no underscore it is the whole base
name; and the row of an image whose processing raises records the literal
`"N/A"` as its flower label. -/
theorem c10_inferred_flower_label (imageFilename : PyStr)
    (oracle : PyStr → Except PyStr PyStr) (e resp : PyStr) :
    ('_' ∈ (splitext imageFilename).1 →
        inferFlowerName imageFilename
          = pyJoinUnderscore (pySplitChar '_' (splitext imageFilename).1).dropLast)
      ∧ ('_' ∉ (splitext imageFilename).1 →
          inferFlowerName imageFilename = (splitext imageFilename).1)
      ∧ (oracle imageFilename = Except.error e →
          otherTaxaRow oracle imageFilename = (imageFilename, errorLabel, naLabel))
      ∧ (oracle imageFilename = Except.ok resp →
          (otherTaxaRow oracle imageFilename).2.2 = inferFlowerName imageFilename) := by
  have hlen := pySplitChar_length '_' (splitext imageFilename).1
  refine ⟨?_, ?_, ?_, ?_⟩
  · intro hmem
    have hcount : 0 < ((splitext imageFilename).1).count '_' :=
      List.count_pos_iff.mpr hmem
    have hgt : (pySplitChar '_' (splitext imageFilename).1).length > 1 := by omega
    unfold inferFlowerName
    rw [if_pos hgt]
  · intro hmem
    have hcount : ((splitext imageFilename).1).count '_' = 0 := by
      by_contra hne
      exact hmem (List.count_pos_iff.mp (Nat.pos_of_ne_zero hne))
    have hle : ¬ (pySplitChar '_' (splitext imageFilename).1).length > 1 := by omega
    unfold inferFlowerName
    rw [if_neg hle]
  · intro h
    simp [otherTaxaRow, h]
  · intro h
    simp [otherTaxaRow, h]

/-- Witness for C10: `Bellis_perennis_12.jpg` gets the label computed by
joining all parts but the trailing number, i.e. `Bellis_perennis`. -/
theorem c10_witness :
    inferFlowerName "Bellis_perennis_12.jpg".data
      = pyJoinUnderscore
          (pySplitChar '_' (splitext "Bellis_perennis_12.jpg".data).1).dropLast :=
  (c10_inferred_flower_label "Bellis_perennis_12.jpg".data
    (fun _ => Except.ok []) [] []).1 (by decide)

end VlmIqa
